import Mathlib

/-!
Verification development for the ai-code-auditor repository.

The repository's deterministic core lives in `src/code_analyzer.py`
(class `CodeAnalyzer`: prompt building and result normalization) and
`src/config.py` (class `Config`: score weights and the file-extension
to language map).  This file gives a shallow embedding of that core.

Modelling conventions:
  * JSON values produced by `json.loads` are modelled by the inductive
    `JValue`.  Python keeps `int` and `float` apart after parsing, so the
    embedding does too (`JValue.int` / `JValue.float`).  Python numeric
    literals (`0.4`, `5`, ...) are modelled as exact rationals.
  * Python dicts are insertion-ordered association lists; `dictSetInt`
    reproduces dict assignment (overwrite in place, else append).
  * Code that can raise (attribute errors on `.get`/`.items`, iteration
    over a non-iterable) is modelled in `Except String`; the message text
    mirrors the CPython message shape.
-/

/-- A JSON value as produced by Python's `json.loads`, plus the Python
`bool`/`None` distinctions that matter to the analyzer's checks. -/
inductive JValue where
  | null
  | bool (b : Bool)
  | int (n : ℤ)
  | float (q : ℚ)
  | str (s : String)
  | arr (xs : List JValue)
  | obj (kvs : List (String × JValue))
deriving Repr

/-- Python truthiness (`not x` / `if x`) on a JSON value: `None`, `False`,
numeric zero, and empty containers/strings are falsy. -/
def isFalsy : JValue → Bool
  | .null => true
  | .bool b => !b
  | .int n => n == 0
  | .float q => q == 0
  | .str s => s.isEmpty
  | .arr xs => xs.isEmpty
  | .obj kvs => kvs.isEmpty

/-- Python `x == 5` for a JSON value `x` (numeric cross-type equality;
`True == 5` is false since `True` equals `1`). -/
def jEqFive : JValue → Bool
  | .bool b => (if b then (1 : ℤ) else 0) == 5
  | .int n => n == 5
  | .float q => q == 5
  | _ => false

/-- `isinstance(value, (int, float))` together with the numeric value used
by `round`: Python `bool` is a subclass of `int` (`True` is `1`). -/
def asPyNumber : JValue → Option ℚ
  | .bool b => some (if b then 1 else 0)
  | .int n => some (n : ℚ)
  | .float q => some q
  | _ => none

/-- `dict.get(key, default)` on a JSON object (association list). -/
def jGet (kvs : List (String × JValue)) (k : String) (d : JValue) : JValue :=
  match kvs.find? (fun p => p.1 == k) with
  | some p => p.2
  | none => d

/-- Python 3 `round` to the nearest integer, ties to even (banker's
rounding), on an exact rational. -/
def pyRound (q : ℚ) : ℤ :=
  let f := ⌊q⌋
  let r := q - f
  if r < 1 / 2 then f
  else if r > 1 / 2 then f + 1
  else if f % 2 == 0 then f else f + 1

/-- Python `round(x, 1)`: round to one decimal place. -/
def roundTo1 (q : ℚ) : ℚ := (pyRound (q * 10) : ℚ) / 10

/-- Python dict assignment `d[k] = v` on an insertion-ordered association
list of integer values: overwrite in place if the key exists, else append. -/
def dictSetInt (d : List (String × ℤ)) (k : String) (v : ℤ) : List (String × ℤ) :=
  if d.any (fun p => p.1 == k) then
    d.map (fun p => if p.1 == k then (k, v) else p)
  else d ++ [(k, v)]

/-- Python `d.get(k, default)` on an association list of integer values. -/
def dictGetInt (d : List (String × ℤ)) (k : String) (dflt : ℤ) : ℤ :=
  match d.find? (fun p => p.1 == k) with
  | some p => p.2
  | none => dflt

/-- One iteration of the loop in `CodeAnalyzer._normalize_scores`: if the
entry's value is numeric, store `max(1, min(10, int(round(value))))`
under the entry's key, otherwise leave the dict unchanged. -/
def scoreStep (acc : List (String × ℤ)) (kv : String × JValue) : List (String × ℤ) :=
  match asPyNumber kv.2 with
  | some q => dictSetInt acc kv.1 (max 1 (min 10 (pyRound q)))
  | none => acc

/-- `CodeAnalyzer._normalize_scores`: start from the three defaults of 5,
then run the loop over the raw entries in order. -/
def normalizeScores (scores : List (String × JValue)) : List (String × ℤ) :=
  scores.foldl scoreStep [("Quality", 5), ("Security", 5), ("Performance", 5)]

/-- The value the loop of `_normalize_scores` leaves under key `k`: the
numeric value of the last entry named `k` whose value is numeric (later
non-numeric entries named `k` are skipped, not stored). -/
def lastNum (k : String) : List (String × JValue) → Option ℚ
  | [] => none
  | x :: xs =>
    match lastNum k xs with
    | some q => some q
    | none => if x.1 == k then asPyNumber x.2 else none

/-- The Python type name of a JSON value, as it appears in CPython error
messages such as `'int' object has no attribute 'get'`. -/
def pyTypeName : JValue → String
  | .null => "NoneType"
  | .bool _ => "bool"
  | .int _ => "int"
  | .float _ => "float"
  | .str _ => "str"
  | .arr _ => "list"
  | .obj _ => "dict"

/-- Decimal rendering of a rational whose denominator is a power of ten
times a unit, used by `pyRepr` for floats.  Python prints the shortest
decimal that round-trips; for the decimal-valued rationals this model
works with the two agree, and no verified claim inspects this text. -/
def ratRepr (q : ℚ) : String :=
  if q.den = 1 then toString q.num ++ ".0"
  else toString q.num ++ "/" ++ toString q.den

mutual
/-- Python `repr` of a JSON value (used by `str` on containers). -/
def pyRepr : JValue → String
  | .null => "None"
  | .bool b => if b then "True" else "False"
  | .int n => toString n
  | .float q => ratRepr q
  | .str s => "'" ++ s ++ "'"
  | .arr xs => "[" ++ String.intercalate ", " (pyReprList xs) ++ "]"
  | .obj kvs => "\x7b" ++ String.intercalate ", " (pyReprPairs kvs) ++ "\x7d"

/-- `repr` of each element of a list. -/
def pyReprList : List JValue → List String
  | [] => []
  | x :: xs => pyRepr x :: pyReprList xs

/-- `repr` of each `key: value` pair of a dict. -/
def pyReprPairs : List (String × JValue) → List String
  | [] => []
  | (k, v) :: kvs => ("'" ++ k ++ "': " ++ pyRepr v) :: pyReprPairs kvs
end

/-- Python `str(x)`: a string is returned as is, anything else as its repr. -/
def pyStr : JValue → String
  | .str s => s
  | v => pyRepr v

/-- Python `in` against a list of string literals: `v in [l1, l2, ...]`.
Only a string can equal a string literal. -/
def jInStrList (v : JValue) (l : List String) : Bool :=
  match v with
  | .str s => l.contains s
  | _ => false

/-- A validated issue record as assembled by
`CodeAnalyzer._validate_issues`: after validation `type` and `severity`
are always strings from the allowed sets, `description` is a string, and
`line` / `code` are passed through unvalidated. -/
structure Issue where
  type : String
  severity : String
  description : String
  line : JValue
  code : JValue
deriving Repr

/-- Reshape one mapping entry of `issues` into an `Issue` record:
defaults for missing keys, then severity outside
Low/Medium/High/Critical becomes "Medium" and type outside
Quality/Security/Performance becomes "Quality". -/
def validateIssue (kvs : List (String × JValue)) : Issue :=
  let ty0 := jGet kvs "type" (.str "Quality")
  let sev0 := jGet kvs "severity" (.str "Medium")
  { type :=
      match ty0 with
      | .str s => if ["Quality", "Security", "Performance"].contains s then s else "Quality"
      | _ => "Quality"
  , severity :=
      match sev0 with
      | .str s => if ["Low", "Medium", "High", "Critical"].contains s then s else "Medium"
      | _ => "Medium"
  , description := pyStr (jGet kvs "description" (.str "No description provided"))
  , line := jGet kvs "line" .null
  , code := jGet kvs "code" .null }

/-- `CodeAnalyzer._validate_issues` over an already-iterated sequence:
keep mapping entries (reshaped) in order, drop everything else. -/
def validateIssues (items : List JValue) : List Issue :=
  items.foldr
    (fun v acc =>
      match v with
      | .obj kvs => validateIssue kvs :: acc
      | _ => acc)
    []

/-- Python iteration `for x in v`: lists yield their elements, strings
their characters, dicts their keys; numbers, booleans and `None` raise
`TypeError`. -/
def pyIter : JValue → Option (List JValue)
  | .arr xs => some xs
  | .str s => some (s.toList.map (fun c => .str (String.mk [c])))
  | .obj kvs => some (kvs.map (fun p => .str p.1))
  | _ => none

/-- `Config.score_weights` (and the weights read from it in
`_process_analysis_result`), with Python's decimal literals as exact
rationals. -/
structure ScoreWeights where
  quality : ℚ
  security : ℚ
  performance : ℚ
deriving Repr

/-- The default `Config.score_weights` from `src/config.py`. -/
def defaultScoreWeights : ScoreWeights :=
  { quality := 0.4, security := 0.35, performance := 0.25 }

/-- The processed analysis result: the dict assembled by
`CodeAnalyzer._process_analysis_result` (also the shape built by
`_create_error_result`).  `overall_score`, `recommendations` and
`summary` carry whatever JSON value the code leaves there. -/
structure Processed where
  overall_score : JValue
  scores : List (String × ℤ)
  issues : List Issue
  recommendations : JValue
  summary : JValue
deriving Repr

/-- `CodeAnalyzer._create_error_result`. -/
def createErrorResult (msg : String) : Processed :=
  { overall_score := .int 0
  , scores := [("Quality", 0), ("Security", 0), ("Performance", 0)]
  , issues :=
      [{ type := "Quality"
       , severity := "High"
       , description := "Analysis failed: " ++ msg
       , line := .null
       , code := .null }]
  , recommendations :=
      .arr [ .str "Please check your code syntax and try again"
           , .str "Ensure your OpenAI API key is valid and has sufficient credits" ]
  , summary := .str ("Analysis failed due to: " ++ msg) }

/-- `CodeAnalyzer._process_analysis_result` on a parsed JSON value.
Failures that would raise in Python (`.get` on a non-dict, `.items()` on
a non-dict `scores`, iterating a non-iterable `issues`) are returned as
`Except.error` with the CPython message. -/
def processAnalysisResult (w : ScoreWeights) (raw : JValue) : Except String Processed :=
  match raw with
  | .obj kvs =>
    let rawOverall := jGet kvs "overall_score" (.int 5)
    let rawScores := jGet kvs "scores" (.obj [])
    let rawIssues := jGet kvs "issues" (.arr [])
    let rawRecs := jGet kvs "recommendations" (.arr [])
    let rawSummary := jGet kvs "summary" (.str "Analysis completed")
    match rawScores with
    | .obj slist =>
      let scores := normalizeScores slist
      let overall : JValue :=
        if isFalsy rawOverall || jEqFive rawOverall then
          .float (roundTo1
            ((dictGetInt scores "Quality" 5 : ℚ) * w.quality +
             (dictGetInt scores "Security" 5 : ℚ) * w.security +
             (dictGetInt scores "Performance" 5 : ℚ) * w.performance))
        else rawOverall
      match pyIter rawIssues with
      | some items =>
        let issues := validateIssues items
        let recs : JValue :=
          match rawRecs with
          | .str s => .arr [.str s]
          | other => other
        .ok { overall_score := overall
            , scores := scores
            , issues := issues
            , recommendations := recs
            , summary := rawSummary }
      | none =>
        .error ("'" ++ pyTypeName rawIssues ++ "' object is not iterable")
    | _ =>
      .error ("'" ++ pyTypeName rawScores ++ "' object has no attribute 'items'")
  | _ =>
    .error ("'" ++ pyTypeName raw ++ "' object has no attribute 'get'")

/-- The result-normalization path of `CodeAnalyzer.analyze_code` after
the remote call: the reply text is parsed as JSON (the outcome of
`json.loads` is the `Except` argument, with the decode-error text on
failure); a decode error yields the error result with a
`Failed to parse AI response:` message, any exception during processing
yields the error result with an `Analysis failed:` message. -/
def analyzeReply (w : ScoreWeights) (parsed : Except String JValue) : Processed :=
  match parsed with
  | .error e => createErrorResult ("Failed to parse AI response: " ++ e)
  | .ok v =>
    match processAnalysisResult w v with
    | .ok p => p
    | .error e => createErrorResult ("Analysis failed: " ++ e)

/-- The fixed extension-to-language map inside
`Config.get_file_extension_language`. -/
def extensionMap : List (String × String) :=
  [ (".py", "python"), (".js", "javascript"), (".ts", "typescript")
  , (".tsx", "typescript"), (".jsx", "javascript"), (".java", "java")
  , (".cpp", "cpp"), (".c", "c"), (".h", "c"), (".hpp", "cpp")
  , (".go", "go"), (".rs", "rust"), (".php", "php"), (".rb", "ruby")
  , (".swift", "swift"), (".kt", "kotlin"), (".scala", "scala") ]

/-- Index of the last occurrence of a character in a character list
(accumulator carries the index of the head). -/
def lastIndexOfAux (c : Char) : List Char → Nat → Option Nat
  | [], _ => none
  | x :: xs, i =>
    match lastIndexOfAux c xs (i + 1) with
    | some j => some j
    | none => if x == c then some i else none

/-- The extension component of `os.path.splitext` on POSIX: the suffix
from the last dot that lies after the last `/`, unless every character
between that `/` and the dot is itself a dot (leading dots of the
basename, as in `.bashrc`, are not extension separators). -/
def splitextExt (p : String) : String :=
  let cs := p.toList
  let sepIndex : ℤ :=
    match lastIndexOfAux '/' cs 0 with
    | some i => (i : ℤ)
    | none => -1
  let dotIndex : ℤ :=
    match lastIndexOfAux '.' cs 0 with
    | some i => (i : ℤ)
    | none => -1
  if dotIndex > sepIndex &&
      (List.range cs.length).any
        (fun i => sepIndex < (i : ℤ) && (i : ℤ) < dotIndex && cs.getD i '.' != '.')
  then String.mk (cs.drop dotIndex.toNat)
  else ""

/-- `Config.get_file_extension_language`: look the lower-cased extension
up in the fixed map. -/
def getFileExtensionLanguage (filename : String) : Option String :=
  (extensionMap.find? (fun p => p.1 == (splitextExt filename).toLower)).map (fun p => p.2)

/-- Python `x or default` on an optional string (the `language` line of
`analyze_code`): `None` and the empty string are falsy. -/
def pyOrStr (o : Option String) (d : String) : String :=
  match o with
  | some s => if s.isEmpty then d else s
  | none => d

/-- Language detection in `CodeAnalyzer.analyze_code`:
`self.config.get_file_extension_language(filename) or "python"`. -/
def detectLanguage (filename : String) : String :=
  pyOrStr (getFileExtensionLanguage filename) "python"

/-- `CodeAnalyzer._get_system_prompt`: a fixed instruction string. -/
def getSystemPrompt : String :=
  "You are an expert code reviewer and security analyst. Your job is to analyze code for:\n\n1. CODE QUALITY: Readability, maintainability, best practices, design patterns\n2. SECURITY: Vulnerabilities, unsafe practices, potential exploits\n3. PERFORMANCE: Efficiency, optimization opportunities, resource usage\n\nYou must respond with a valid JSON object containing:\n\x7b\n    \"overall_score\": <number 1-10>,\n    \"scores\": \x7b\n        \"Quality\": <number 1-10>,\n        \"Security\": <number 1-10>,\n        \"Performance\": <number 1-10>\n    \x7d,\n    \"issues\": [\n        \x7b\n            \"type\": \"Quality|Security|Performance\",\n            \"severity\": \"Low|Medium|High|Critical\",\n            \"description\": \"Clear description of the issue\",\n            \"line\": <line number or null>,\n            \"code\": \"problematic code snippet or null\"\n        \x7d\n    ],\n    \"recommendations\": [\n        \"Specific actionable recommendation\"\n    ],\n    \"summary\": \"Brief summary of the analysis\"\n\x7d\n\nBe thorough but constructive. Focus on actionable feedback."

/-- The aspect-name list assembled at the top of
`CodeAnalyzer._build_analysis_prompt`: style, then security, then
performance, each included only when its flag is set. -/
def analysisAspects (include_security include_performance include_style : Bool) : List String :=
  (if include_style then ["code quality and style"] else []) ++
  (if include_security then ["security vulnerabilities"] else []) ++
  (if include_performance then ["performance optimization"] else [])

/-- `CodeAnalyzer._build_analysis_prompt`: the user-prompt f-string. -/
def buildAnalysisPrompt (code language filename : String)
    (include_security include_performance include_style : Bool) : String :=
  let aspects_text :=
    String.intercalate ", " (analysisAspects include_security include_performance include_style)
  "Please analyze this " ++ language ++ " code file (" ++ filename ++ ") for " ++
    aspects_text ++
    ".\n\nCode to analyze:\n```" ++ language ++ "\n" ++ code ++
    "\n```\n\nFocus on:\n- Code quality: readability, maintainability, best practices, naming conventions\n- Security: potential vulnerabilities, unsafe operations, input validation\n- Performance: efficiency, algorithm complexity, resource usage\n- Specific issues with line numbers when possible\n- Actionable recommendations for improvement\n\nProvide scores from 1-10 (10 being excellent) and specific, actionable feedback."

theorem find?_map_set_self (d : List (String × ℤ)) (k : String) (v : ℤ)
    (h : d.any (fun p => p.1 == k) = true) :
    (d.map (fun p => if p.1 == k then (k, v) else p)).find? (fun p => p.1 == k) =
      some (k, v) := by
  induction d with
  | nil => simp at h
  | cons x xs ih =>
    rw [List.map_cons]
    by_cases hx : x.1 = k
    · have e1 : (if (x.1 == k) = true then (k, v) else x) = (k, v) := by simp [hx]
      rw [e1, List.find?_cons_of_pos _ (by simp)]
    · have e1 : (if (x.1 == k) = true then (k, v) else x) = x := by simp [hx]
      have h' : xs.any (fun p => p.1 == k) = true := by
        simpa [List.any_cons, hx] using h
      rw [e1, List.find?_cons_of_neg _ (by simp [hx])]
      exact ih h'

theorem find?_map_set_ne (d : List (String × ℤ)) (k k' : String) (v : ℤ)
    (h : k' ≠ k) :
    (d.map (fun p => if p.1 == k then (k, v) else p)).find? (fun p => p.1 == k') =
      d.find? (fun p => p.1 == k') := by
  induction d with
  | nil => rfl
  | cons x xs ih =>
    rw [List.map_cons]
    by_cases hx : x.1 = k
    · have e1 : (if (x.1 == k) = true then (k, v) else x) = (k, v) := by simp [hx]
      rw [e1, List.find?_cons_of_neg _ (by simp [Ne.symm h]),
        List.find?_cons_of_neg _ (by simp [hx, Ne.symm h])]
      exact ih
    · have e1 : (if (x.1 == k) = true then (k, v) else x) = x := by simp [hx]
      rw [e1]
      by_cases hx' : x.1 = k'
      · rw [List.find?_cons_of_pos _ (by simp [hx']), List.find?_cons_of_pos _ (by simp [hx'])]
      · rw [List.find?_cons_of_neg _ (by simp [hx']), List.find?_cons_of_neg _ (by simp [hx'])]
        exact ih

theorem dictGetInt_dictSetInt_self (d : List (String × ℤ)) (k : String) (v dflt : ℤ) :
    dictGetInt (dictSetInt d k v) k dflt = v := by
  unfold dictSetInt dictGetInt
  by_cases h : d.any (fun p => p.1 == k) = true
  · rw [if_pos h, find?_map_set_self d k v h]
  · have hfalse : d.any (fun p => p.1 == k) = false := eq_false_of_ne_true h
    have hnone : d.find? (fun p => p.1 == k) = none := by
      rw [List.find?_eq_none]
      intro x hx
      exact List.any_eq_false.mp hfalse x hx
    rw [if_neg h, List.find?_append, hnone]
    simp

theorem dictGetInt_dictSetInt_ne (d : List (String × ℤ)) (k k' : String) (v dflt : ℤ)
    (h : k' ≠ k) :
    dictGetInt (dictSetInt d k v) k' dflt = dictGetInt d k' dflt := by
  unfold dictSetInt dictGetInt
  by_cases hany : d.any (fun p => p.1 == k) = true
  · rw [if_pos hany, find?_map_set_ne d k k' v h]
  · rw [if_neg hany, List.find?_append]
    have hlast : List.find? (fun p => p.1 == k') [(k, v)] = none := by
      simp [Ne.symm h]
    rw [hlast]
    cases d.find? (fun p => p.1 == k') <;> rfl

theorem dictGetInt_scoreFoldl (l : List (String × JValue)) (acc : List (String × ℤ))
    (k : String) (dflt : ℤ) :
    dictGetInt (l.foldl scoreStep acc) k dflt =
      match lastNum k l with
      | some q => max 1 (min 10 (pyRound q))
      | none => dictGetInt acc k dflt := by
  induction l generalizing acc with
  | nil => rfl
  | cons x xs ih =>
    rw [List.foldl_cons, ih]
    cases hxs : lastNum k xs with
    | some q => simp [lastNum, hxs]
    | none =>
      simp only [lastNum, hxs]
      by_cases hk : x.1 = k
      · cases hv : asPyNumber x.2 with
        | none => simp [scoreStep, hv, hk]
        | some q =>
          simp only [scoreStep, hv, hk, beq_self_eq_true, if_true]
          exact dictGetInt_dictSetInt_self acc k _ dflt
      · rw [if_neg (by simp [hk] : ¬(x.1 == k) = true)]
        cases hv : asPyNumber x.2 with
        | none => simp [scoreStep, hv]
        | some q =>
          simp only [scoreStep, hv]
          exact dictGetInt_dictSetInt_ne acc x.1 k _ dflt (fun hc => hk hc.symm)

theorem mem_dictSetInt {p : String × ℤ} (d : List (String × ℤ)) (k : String) (v : ℤ)
    (h : p ∈ dictSetInt d k v) : p.2 = v ∨ p ∈ d := by
  unfold dictSetInt at h
  by_cases hany : d.any (fun q => q.1 == k) = true
  · rw [if_pos hany] at h
    rcases List.mem_map.mp h with ⟨a, ha, hfa⟩
    by_cases hak : a.1 = k
    · left
      rw [← hfa]
      simp [hak]
    · right
      rwa [← hfa, if_neg (by simp [hak] : ¬(a.1 == k) = true)]
  · rw [if_neg hany] at h
    rcases List.mem_append.mp h with h' | h'
    · exact Or.inr h'
    · left
      rcases List.mem_singleton.mp h' with rfl
      rfl

theorem scoreFoldl_values_bounded (l : List (String × JValue)) (acc : List (String × ℤ))
    (hacc : ∀ p ∈ acc, 1 ≤ p.2 ∧ p.2 ≤ 10) :
    ∀ p ∈ l.foldl scoreStep acc, 1 ≤ p.2 ∧ p.2 ≤ 10 := by
  induction l generalizing acc with
  | nil => exact hacc
  | cons x xs ih =>
    rw [List.foldl_cons]
    refine ih (scoreStep acc x) ?_
    intro p hp
    unfold scoreStep at hp
    cases hv : asPyNumber x.2 with
    | none => rw [hv] at hp; exact hacc p hp
    | some q =>
      rw [hv] at hp
      rcases mem_dictSetInt _ _ _ hp with h2 | h2
      · constructor
        · rw [h2]; exact le_max_left 1 _
        · rw [h2]
          exact max_le (by norm_num) (min_le_left 10 _)
      · exact hacc p h2

theorem keys_dictSetInt (d : List (String × ℤ)) (k : String) (v : ℤ) :
    (dictSetInt d k v).map Prod.fst = d.map Prod.fst ∨
      (dictSetInt d k v).map Prod.fst = d.map Prod.fst ++ [k] := by
  unfold dictSetInt
  by_cases hany : d.any (fun q => q.1 == k) = true
  · left
    rw [if_pos hany, List.map_map]
    refine List.map_congr_left ?_
    intro a _
    by_cases hak : a.1 = k
    · simp [hak]
    · simp [hak]
  · right
    rw [if_neg hany, List.map_append]
    rfl

theorem keys_scoreFoldl_extend (l : List (String × JValue)) (acc : List (String × ℤ)) :
    ∃ rest, (l.foldl scoreStep acc).map Prod.fst = acc.map Prod.fst ++ rest := by
  induction l generalizing acc with
  | nil => exact ⟨[], by simp⟩
  | cons x xs ih =>
    rw [List.foldl_cons]
    rcases ih (scoreStep acc x) with ⟨rest, hrest⟩
    unfold scoreStep at hrest ⊢
    cases hv : asPyNumber x.2 with
    | none => rw [hv] at hrest; exact ⟨rest, hrest⟩
    | some q =>
      rw [hv] at hrest
      rcases keys_dictSetInt acc x.1 (max 1 (min 10 (pyRound q))) with hk | hk
      · rw [hk] at hrest; exact ⟨rest, hrest⟩
      · rw [hk, List.append_assoc] at hrest
        exact ⟨[x.1] ++ rest, hrest⟩

theorem keys_scoreFoldl_from (l : List (String × JValue)) (acc : List (String × ℤ))
    (k : String) (h : k ∈ (l.foldl scoreStep acc).map Prod.fst) :
    k ∈ acc.map Prod.fst ∨ ∃ v, (k, v) ∈ l ∧ (asPyNumber v).isSome = true := by
  induction l generalizing acc with
  | nil => exact Or.inl h
  | cons x xs ih =>
    rw [List.foldl_cons] at h
    rcases ih (scoreStep acc x) h with h' | h'
    · unfold scoreStep at h'
      cases hv : asPyNumber x.2 with
      | none => rw [hv] at h'; exact Or.inl h'
      | some q =>
        rw [hv] at h'
        rcases keys_dictSetInt acc x.1 (max 1 (min 10 (pyRound q))) with hk | hk
        · rw [hk] at h'; exact Or.inl h'
        · rw [hk] at h'
          rcases List.mem_append.mp h' with h2 | h2
          · exact Or.inl h2
          · rcases List.mem_singleton.mp h2 with rfl
            refine Or.inr ⟨x.2, ?_, by simp [hv]⟩
            have := List.mem_cons_self x xs
            rwa [← Prod.mk.eta (p := x)] at this
    · rcases h' with ⟨v, hv, hnum⟩
      exact Or.inr ⟨v, List.mem_cons_of_mem x hv, hnum⟩

theorem pyRound_bounds (q : ℚ) : ⌊q⌋ ≤ pyRound q ∧ pyRound q ≤ ⌈q⌉ := by
  unfold pyRound
  by_cases h1 : q - (⌊q⌋ : ℚ) < 1 / 2
  · rw [if_pos h1]
    exact ⟨le_refl _, Int.floor_le_ceil q⟩
  · rw [if_neg h1]
    have hfl : (⌊q⌋ : ℚ) < q := by
      have h : (1 : ℚ) / 2 ≤ q - (⌊q⌋ : ℚ) := not_lt.mp h1
      linarith
    have hceil : ⌊q⌋ + 1 ≤ ⌈q⌉ := by
      have h := Int.lt_ceil.mpr hfl
      omega
    by_cases h2 : q - (⌊q⌋ : ℚ) > 1 / 2
    · rw [if_pos h2]
      exact ⟨by omega, hceil⟩
    · rw [if_neg h2]
      by_cases h3 : (⌊q⌋ % 2 == 0) = true
      · rw [if_pos h3]
        exact ⟨le_refl _, Int.floor_le_ceil q⟩
      · rw [if_neg h3]
        exact ⟨by omega, hceil⟩

theorem roundTo1_bounds {q : ℚ} (h1 : 1 ≤ q) (h2 : q ≤ 10) :
    1 ≤ roundTo1 q ∧ roundTo1 q ≤ 10 := by
  have hb := pyRound_bounds (q * 10)
  have hlow : (10 : ℤ) ≤ ⌊q * 10⌋ := Int.le_floor.mpr (by push_cast; linarith)
  have hhigh : ⌈q * 10⌉ ≤ (100 : ℤ) := Int.ceil_le.mpr (by push_cast; linarith)
  have hq1 : (10 : ℚ) ≤ (pyRound (q * 10) : ℚ) := by exact_mod_cast hlow.trans hb.1
  have hq2 : ((pyRound (q * 10) : ℚ)) ≤ 100 := by exact_mod_cast hb.2.trans hhigh
  unfold roundTo1
  constructor <;> linarith

theorem pyRound_intCast (n : ℤ) : pyRound (n : ℚ) = n := by
  unfold pyRound
  rw [Int.floor_intCast]
  norm_num

theorem processAnalysisResult_ok_shape (w : ScoreWeights) (kvs : List (String × JValue))
    (p : Processed) (h : processAnalysisResult w (.obj kvs) = .ok p) :
    ∃ slist items,
      jGet kvs "scores" (.obj []) = .obj slist ∧
      pyIter (jGet kvs "issues" (.arr [])) = some items ∧
      p = { overall_score :=
              if isFalsy (jGet kvs "overall_score" (.int 5)) ||
                  jEqFive (jGet kvs "overall_score" (.int 5)) then
                .float (roundTo1
                  ((dictGetInt (normalizeScores slist) "Quality" 5 : ℚ) * w.quality +
                   (dictGetInt (normalizeScores slist) "Security" 5 : ℚ) * w.security +
                   (dictGetInt (normalizeScores slist) "Performance" 5 : ℚ) * w.performance))
              else jGet kvs "overall_score" (.int 5)
          , scores := normalizeScores slist
          , issues := validateIssues items
          , recommendations :=
              match jGet kvs "recommendations" (.arr []) with
              | .str s => .arr [.str s]
              | other => other
          , summary := jGet kvs "summary" (.str "Analysis completed") } := by
  unfold processAnalysisResult at h
  cases hsc : jGet kvs "scores" (.obj []) <;> simp only [hsc] at h <;>
    try exact Except.noConfusion h
  case obj slist =>
    cases hit : pyIter (jGet kvs "issues" (.arr [])) <;> simp only [hit] at h <;>
      try exact Except.noConfusion h
    case some items =>
      refine ⟨slist, items, rfl, rfl, ?_⟩
      exact (Except.ok.inj h).symm

theorem dictGetInt_init_five (k : String) :
    dictGetInt [("Quality", (5 : ℤ)), ("Security", 5), ("Performance", 5)] k 5 = 5 := by
  unfold dictGetInt
  cases h : List.find? (fun p => p.1 == k)
      [("Quality", (5 : ℤ)), ("Security", 5), ("Performance", 5)] with
  | none => rfl
  | some a =>
    have ha := List.mem_of_find?_eq_some h
    simp only [List.mem_cons, List.not_mem_nil, or_false] at ha
    rcases ha with rfl | rfl | rfl <;> rfl

/-- C6: `makeErrorResult(message)` returns the fixed degraded shape:
overall score 0, the three scores all 0, exactly one issue of type
Quality and severity High with description `"Analysis failed: " + message`
and null line/code, the two fixed recommendation strings, and summary
`"Analysis failed due to: " + message`. -/
theorem createErrorResult_shape (msg : String) :
    (createErrorResult msg).overall_score = .int 0 ∧
    (createErrorResult msg).scores =
      [("Quality", 0), ("Security", 0), ("Performance", 0)] ∧
    (createErrorResult msg).issues.length = 1 ∧
    (∀ i ∈ (createErrorResult msg).issues,
      i.type = "Quality" ∧ i.severity = "High" ∧
      i.description = "Analysis failed: " ++ msg ∧
      i.line = .null ∧ i.code = .null) ∧
    (createErrorResult msg).recommendations =
      .arr [ .str "Please check your code syntax and try again"
           , .str "Ensure your OpenAI API key is valid and has sufficient credits" ] ∧
    (createErrorResult msg).summary = .str ("Analysis failed due to: " ++ msg) := by
  refine ⟨rfl, rfl, rfl, ?_, rfl, rfl⟩
  intro i hi
  rcases List.mem_singleton.mp hi with rfl
  exact ⟨rfl, rfl, rfl, rfl, rfl⟩

theorem createErrorResult_shape_witness :
    (createErrorResult "boom").overall_score = .int 0 ∧
    (createErrorResult "boom").issues.length = 1 ∧
    (createErrorResult "boom").summary = .str "Analysis failed due to: boom" :=
  ⟨(createErrorResult_shape "boom").1,
   (createErrorResult_shape "boom").2.2.1,
   (createErrorResult_shape "boom").2.2.2.2.2⟩

/-- C3: the normalization path never throws (every parse outcome yields
either a successfully processed result or the fixed error result), error
results are structurally valid, and an unparseable reply yields the
error result with overall score 0 and exactly one issue, of severity
High. -/
theorem analyzeReply_never_throws :
    (∀ e : String,
      analyzeReply defaultScoreWeights (.error e) =
        createErrorResult ("Failed to parse AI response: " ++ e) ∧
      (analyzeReply defaultScoreWeights (.error e)).overall_score = .int 0 ∧
      (analyzeReply defaultScoreWeights (.error e)).issues.length = 1 ∧
      ∀ i ∈ (analyzeReply defaultScoreWeights (.error e)).issues, i.severity = "High") ∧
    (∀ (w : ScoreWeights) (parsed : Except String JValue),
      (∃ m, analyzeReply w parsed = createErrorResult m) ∨
      (∃ v p, parsed = .ok v ∧ processAnalysisResult w v = .ok p ∧
        analyzeReply w parsed = p)) ∧
    (∀ m : String,
      (createErrorResult m).scores.map Prod.fst =
        ["Quality", "Security", "Performance"] ∧
      ∀ i ∈ (createErrorResult m).issues,
        i.type ∈ ["Quality", "Security", "Performance"] ∧
        i.severity ∈ ["Low", "Medium", "High", "Critical"]) := by
  refine ⟨?_, ?_, ?_⟩
  · intro e
    refine ⟨rfl, rfl, rfl, ?_⟩
    intro i hi
    rcases List.mem_singleton.mp hi with rfl
    rfl
  · intro w parsed
    cases parsed with
    | error e => exact Or.inl ⟨"Failed to parse AI response: " ++ e, rfl⟩
    | ok v =>
      cases hp : processAnalysisResult w v with
      | ok p =>
        refine Or.inr ⟨v, p, rfl, hp, ?_⟩
        simp [analyzeReply, hp]
      | error e =>
        refine Or.inl ⟨"Analysis failed: " ++ e, ?_⟩
        simp [analyzeReply, hp]
  · intro m
    refine ⟨rfl, ?_⟩
    intro i hi
    rcases List.mem_singleton.mp hi with rfl
    refine ⟨?_, ?_⟩ <;> simp

/-- C1 counterexample: an unknown raw key with a numeric value is not
dropped by `_normalize_scores`; it survives into the output, so the
normalized mapping does not have exactly the three known keys. -/
theorem normalizeScores_unknown_key_not_dropped :
    normalizeScores [("Foo", .int 7)] =
      [("Quality", 5), ("Security", 5), ("Performance", 5), ("Foo", 7)] ∧
    ("Foo", (7 : ℤ)) ∈ normalizeScores [("Foo", .int 7)] ∧
    (normalizeScores [("Foo", .int 7)]).map Prod.fst ≠
      ["Quality", "Security", "Performance"] := by
  have e : normalizeScores [("Foo", .int 7)] =
      [("Quality", 5), ("Security", 5), ("Performance", 5), ("Foo", 7)] := by
    with_unfolding_all rfl
  refine ⟨e, ?_, ?_⟩ <;> rw [e] <;> decide

/-- C1 (amended): the normalized mapping always starts with the three
keys Quality, Security, Performance; any further key comes from a raw
entry with a numeric value (so unknown keys with non-numeric values are
dropped, but unknown keys with numeric values are merged in). -/
theorem normalizeScores_keys (scores : List (String × JValue)) :
    (∃ rest, (normalizeScores scores).map Prod.fst =
      ["Quality", "Security", "Performance"] ++ rest) ∧
    (∀ k, k ∈ (normalizeScores scores).map Prod.fst →
      k ∈ ["Quality", "Security", "Performance"] ∨
      ∃ v, (k, v) ∈ scores ∧ (asPyNumber v).isSome = true) ∧
    (∀ k, k ∉ ["Quality", "Security", "Performance"] →
      (∀ v, (k, v) ∈ scores → asPyNumber v = none) →
      k ∉ (normalizeScores scores).map Prod.fst) := by
  refine ⟨?_, ?_, ?_⟩
  · exact keys_scoreFoldl_extend scores _
  · intro k hk
    rcases keys_scoreFoldl_from scores _ k hk with h | h
    · left
      simpa using h
    · exact Or.inr h
  · intro k hk3 hnone hmem
    rcases keys_scoreFoldl_from scores _ k hmem with h | h
    · exact hk3 (by simpa using h)
    · rcases h with ⟨v, hv, hsome⟩
      rw [hnone v hv] at hsome
      simp at hsome

theorem normalizeScores_keys_witness :
    ∃ rest, (normalizeScores [("Bar", .null)]).map Prod.fst =
      ["Quality", "Security", "Performance"] ++ rest :=
  (normalizeScores_keys [("Bar", .null)]).1

/-- C4 counterexample: 7.5 is numeric and lies in [1,10], yet
`_normalize_scores` does not leave it unchanged: it stores
`int(round(7.5)) = 8`. -/
theorem normalizeScores_rounds_inrange_value :
    ((1 : ℚ) ≤ 15 / 2 ∧ (15 / 2 : ℚ) ≤ 10) ∧
    normalizeScores [("Quality", .float (15 / 2))] =
      [("Quality", 8), ("Security", 5), ("Performance", 5)] ∧
    ((8 : ℚ) ≠ 15 / 2) := by
  refine ⟨⟨by norm_num, by norm_num⟩, by with_unfolding_all rfl, by norm_num⟩

/-- C4 (amended): the value stored under a key is `clamp(round(v))` of
the last numeric raw value for that key (so integer values already in
[1,10] are unchanged, other numeric values are rounded half-to-even and
clamped into [1,10] — Python treats booleans as numeric here); entries
with non-numeric values are ignored, leaving the default 5; and with the
`scores` key missing entirely the normalized scores are all 5. -/
theorem normalizeScores_value_rules :
    (∀ (scores : List (String × JValue)) (k : String),
      dictGetInt (normalizeScores scores) k 5 =
        match lastNum k scores with
        | some q => max 1 (min 10 (pyRound q))
        | none => 5) ∧
    (∀ n : ℤ, 1 ≤ n → n ≤ 10 → max 1 (min 10 (pyRound (n : ℚ))) = n) ∧
    (∀ q : ℚ, 1 ≤ max 1 (min 10 (pyRound q)) ∧ max 1 (min 10 (pyRound q)) ≤ 10) ∧
    normalizeScores [] = [("Quality", 5), ("Security", 5), ("Performance", 5)] ∧
    (∀ (w : ScoreWeights) (kvs : List (String × JValue)) (p : Processed),
      processAnalysisResult w (.obj kvs) = .ok p →
      kvs.find? (fun e => e.1 == "scores") = none →
      p.scores = [("Quality", 5), ("Security", 5), ("Performance", 5)]) := by
  refine ⟨?_, ?_, ?_, rfl, ?_⟩
  · intro scores k
    rw [normalizeScores, dictGetInt_scoreFoldl]
    cases h : lastNum k scores <;> simp only [h]
    exact dictGetInt_init_five k
  · intro n h1 h2
    rw [pyRound_intCast, min_eq_right h2, max_eq_right h1]
  · intro q
    exact ⟨le_max_left 1 _, max_le (by norm_num) (min_le_left 10 _)⟩
  · intro w kvs p h hnone
    rcases processAnalysisResult_ok_shape w kvs p h with ⟨slist, items, hsc, hit, rfl⟩
    have hmiss : jGet kvs "scores" (.obj []) = .obj [] := by
      unfold jGet
      rw [hnone]
    rw [hmiss] at hsc
    cases hsc
    rfl

theorem normalizeScores_value_rules_witness :
    dictGetInt (normalizeScores [("Quality", .int 7)]) "Quality" 5 = 7 := by
  have h1 := (normalizeScores_value_rules).1 [("Quality", .int 7)] "Quality"
  have h2 := (normalizeScores_value_rules).2.1 7 (by norm_num) (by norm_num)
  have e : lastNum "Quality" [("Quality", .int 7)] = some ((7 : ℤ) : ℚ) := by
    with_unfolding_all rfl
  rw [h1, e]
  exact h2

/-- C2: the overall score is recomputed as the weighted sum of the three
normalized scores rounded to one decimal exactly when the raw
`overall_score` is falsy/absent or equals 5; any other supplied value is
passed through unchanged; and with raw overall score 5, scores 8/6/4 and
the default weights 0.4/0.35/0.25 the result is 6.3. -/
theorem overall_score_reconciliation (w : ScoreWeights)
    (kvs : List (String × JValue)) (p : Processed)
    (h : processAnalysisResult w (.obj kvs) = .ok p) :
    (((isFalsy (jGet kvs "overall_score" (.int 5)) ||
        jEqFive (jGet kvs "overall_score" (.int 5))) = true →
      p.overall_score = .float (roundTo1
        ((dictGetInt p.scores "Quality" 5 : ℚ) * w.quality +
         (dictGetInt p.scores "Security" 5 : ℚ) * w.security +
         (dictGetInt p.scores "Performance" 5 : ℚ) * w.performance))) ∧
     ((isFalsy (jGet kvs "overall_score" (.int 5)) ||
        jEqFive (jGet kvs "overall_score" (.int 5))) = false →
      p.overall_score = jGet kvs "overall_score" (.int 5))) ∧
    (∃ p6 : Processed,
      processAnalysisResult defaultScoreWeights
        (.obj [("overall_score", .int 5),
               ("scores", .obj [("Quality", .int 8), ("Security", .int 6),
                                ("Performance", .int 4)])]) = .ok p6 ∧
      p6.overall_score = .float (63 / 10)) := by
  constructor
  · rcases processAnalysisResult_ok_shape w kvs p h with ⟨slist, items, hsc, hit, rfl⟩
    constructor
    · intro hcond
      simp only [hcond, if_true]
    · intro hcond
      simp only [hcond, Bool.false_eq_true, if_false]
  · refine ⟨{ overall_score := .float (63 / 10)
            , scores := [("Quality", 8), ("Security", 6), ("Performance", 4)]
            , issues := []
            , recommendations := .arr []
            , summary := .str "Analysis completed" }, ?_, rfl⟩
    with_unfolding_all rfl

theorem overall_score_reconciliation_witness :
    ∃ p : Processed,
      processAnalysisResult defaultScoreWeights
        (.obj [("overall_score", .float (36 / 5))]) = .ok p ∧
      p.overall_score = .float (36 / 5) := by
  have h0 : processAnalysisResult defaultScoreWeights
      (.obj [("overall_score", .float (36 / 5))]) =
      .ok { overall_score := .float (36 / 5)
          , scores := [("Quality", 5), ("Security", 5), ("Performance", 5)]
          , issues := []
          , recommendations := .arr []
          , summary := .str "Analysis completed" } := by
    with_unfolding_all rfl
  refine ⟨_, h0, ?_⟩
  have h := (overall_score_reconciliation defaultScoreWeights
    [("overall_score", .float (36 / 5))] _ h0).1.2 (by with_unfolding_all rfl)
  rw [h]
  rfl

theorem dictGetInt_bounds (d : List (String × ℤ)) (k : String)
    (h : ∀ e ∈ d, 1 ≤ e.2 ∧ e.2 ≤ 10) :
    1 ≤ dictGetInt d k 5 ∧ dictGetInt d k 5 ≤ 10 := by
  unfold dictGetInt
  cases hf : d.find? (fun p => p.1 == k) with
  | none => norm_num
  | some a => exact h a (List.mem_of_find?_eq_some hf)

/-- C10: every value of the normalized scores mapping is an integer in
[1,10]; consequently a recomputed overall score under the default
weights 0.4/0.35/0.25 is a number in [1,10]. -/
theorem scores_range_invariant :
    (∀ (scores : List (String × JValue)) (e : String × ℤ),
      e ∈ normalizeScores scores → 1 ≤ e.2 ∧ e.2 ≤ 10) ∧
    (∀ (kvs : List (String × JValue)) (p : Processed),
      processAnalysisResult defaultScoreWeights (.obj kvs) = .ok p →
      (isFalsy (jGet kvs "overall_score" (.int 5)) ||
        jEqFive (jGet kvs "overall_score" (.int 5))) = true →
      ∃ q : ℚ, p.overall_score = .float q ∧ 1 ≤ q ∧ q ≤ 10) := by
  have hval : ∀ (scores : List (String × JValue)) (e : String × ℤ),
      e ∈ normalizeScores scores → 1 ≤ e.2 ∧ e.2 ≤ 10 := by
    intro scores e he
    refine scoreFoldl_values_bounded scores _ ?_ e he
    intro x hx
    simp only [List.mem_cons, List.not_mem_nil, or_false] at hx
    rcases hx with rfl | rfl | rfl <;> norm_num
  refine ⟨hval, ?_⟩
  intro kvs p h hcond
  rcases processAnalysisResult_ok_shape defaultScoreWeights kvs p h with
    ⟨slist, items, hsc, hit, rfl⟩
  have hQ := dictGetInt_bounds (normalizeScores slist) "Quality" (hval slist)
  have hS := dictGetInt_bounds (normalizeScores slist) "Security" (hval slist)
  have hP := dictGetInt_bounds (normalizeScores slist) "Performance" (hval slist)
  refine ⟨roundTo1
    ((dictGetInt (normalizeScores slist) "Quality" 5 : ℚ) * defaultScoreWeights.quality +
     (dictGetInt (normalizeScores slist) "Security" 5 : ℚ) * defaultScoreWeights.security +
     (dictGetInt (normalizeScores slist) "Performance" 5 : ℚ) * defaultScoreWeights.performance),
    ?_, ?_⟩
  · simp only [hcond, if_true]
  · have ha1 : (1 : ℚ) ≤ (dictGetInt (normalizeScores slist) "Quality" 5 : ℚ) := by
      exact_mod_cast hQ.1
    have ha2 : (dictGetInt (normalizeScores slist) "Quality" 5 : ℚ) ≤ 10 := by
      exact_mod_cast hQ.2
    have hb1 : (1 : ℚ) ≤ (dictGetInt (normalizeScores slist) "Security" 5 : ℚ) := by
      exact_mod_cast hS.1
    have hb2 : (dictGetInt (normalizeScores slist) "Security" 5 : ℚ) ≤ 10 := by
      exact_mod_cast hS.2
    have hc1 : (1 : ℚ) ≤ (dictGetInt (normalizeScores slist) "Performance" 5 : ℚ) := by
      exact_mod_cast hP.1
    have hc2 : (dictGetInt (normalizeScores slist) "Performance" 5 : ℚ) ≤ 10 := by
      exact_mod_cast hP.2
    refine roundTo1_bounds ?_ ?_ <;>
      simp only [defaultScoreWeights] <;> norm_num <;> linarith

theorem scores_range_invariant_witness :
    (("Quality", (10 : ℤ)) ∈ normalizeScores [("Quality", .int 12)] ∧
      (1 ≤ (10 : ℤ) ∧ (10 : ℤ) ≤ 10)) ∧
    (∃ p : Processed,
      processAnalysisResult defaultScoreWeights (.obj []) = .ok p ∧
      ∃ q : ℚ, p.overall_score = .float q ∧ 1 ≤ q ∧ q ≤ 10) := by
  constructor
  · have e : normalizeScores [("Quality", .int 12)] =
        [("Quality", 10), ("Security", 5), ("Performance", 5)] := by
      with_unfolding_all rfl
    have mem : ("Quality", (10 : ℤ)) ∈ normalizeScores [("Quality", .int 12)] := by
      rw [e]; decide
    exact ⟨mem, scores_range_invariant.1 _ _ mem⟩
  · exact ⟨_, rfl,
      scores_range_invariant.2 [] _ rfl (by with_unfolding_all rfl)⟩

theorem validateIssues_eq_filterMap (items : List JValue) :
    validateIssues items = items.filterMap (fun v =>
      match v with
      | .obj kvs => some (validateIssue kvs)
      | _ => none) := by
  induction items with
  | nil => rfl
  | cons x xs ih =>
    cases x <;> simp [validateIssues, List.filterMap_cons] <;>
      simpa [validateIssues] using ih

/-- C5: issue validation drops every non-mapping entry, keeps all
mapping entries in their original order, and defaults an unknown `type`
to "Quality" and an unknown `severity` to "Medium". -/
theorem validateIssues_rules (xs ys : List JValue) (v : JValue)
    (kvs : List (String × JValue)) :
    (validateIssues (xs ++ ys) = validateIssues xs ++ validateIssues ys) ∧
    ((∀ l, v ≠ .obj l) →
      validateIssues (xs ++ v :: ys) = validateIssues (xs ++ ys)) ∧
    (validateIssues (xs ++ .obj kvs :: ys) =
      validateIssues xs ++ validateIssue kvs :: validateIssues ys) ∧
    (jInStrList (jGet kvs "type" (.str "Quality"))
        ["Quality", "Security", "Performance"] = false →
      (validateIssue kvs).type = "Quality") ∧
    (jInStrList (jGet kvs "severity" (.str "Medium"))
        ["Low", "Medium", "High", "Critical"] = false →
      (validateIssue kvs).severity = "Medium") ∧
    ((validateIssue [("type", .str "Unknown"), ("severity", .str "Blocker")]).type =
        "Quality" ∧
     (validateIssue [("type", .str "Unknown"), ("severity", .str "Blocker")]).severity =
        "Medium") := by
  refine ⟨?_, ?_, ?_, ?_, ?_, ?_, ?_⟩
  · simp [validateIssues_eq_filterMap, List.filterMap_append]
  · intro hv
    have hfv : (fun v => match v with
        | JValue.obj kvs => some (validateIssue kvs)
        | _ => none) v = none := by
      cases v
      case obj l => exact absurd rfl (hv l)
      all_goals rfl
    simp [validateIssues_eq_filterMap, List.filterMap_append, List.filterMap_cons, hfv]
  · simp [validateIssues_eq_filterMap, List.filterMap_append, List.filterMap_cons]
  · intro hty
    cases hg : jGet kvs "type" (.str "Quality") <;>
      rw [hg] at hty <;> simp [validateIssue, jInStrList, hg] at hty ⊢
    intro hc
    rcases hc with rfl | rfl | rfl
    · exact absurd rfl hty.1
    · exact absurd rfl hty.2.1
    · exact absurd rfl hty.2.2
  · intro hsev
    cases hg : jGet kvs "severity" (.str "Medium") <;>
      rw [hg] at hsev <;> simp [validateIssue, jInStrList, hg] at hsev ⊢
    intro hc
    rcases hc with rfl | rfl | rfl | rfl
    · exact absurd rfl hsev.1
    · exact absurd rfl hsev.2.1
    · exact absurd rfl hsev.2.2.1
    · exact absurd rfl hsev.2.2.2
  · rfl
  · rfl

theorem validateIssues_rules_witness :
    validateIssues ([] ++ JValue.str "bare" :: []) = validateIssues ([] ++ []) ∧
    (validateIssue [("type", .str "Unknown"), ("severity", .str "Blocker")]).type =
      "Quality" :=
  ⟨(validateIssues_rules [] [] (.str "bare") []).2.1
      (fun _ h => JValue.noConfusion h),
   (validateIssues_rules [] [] (.str "bare")
      [("type", .str "Unknown"), ("severity", .str "Blocker")]).2.2.2.1 rfl⟩

/-- C7: a raw `recommendations` value that is a bare string is wrapped
into a one-element sequence, and any other value is passed through
unchanged with no per-element validation. -/
theorem recommendations_wrapping (w : ScoreWeights)
    (kvs : List (String × JValue)) (p : Processed)
    (h : processAnalysisResult w (.obj kvs) = .ok p) :
    (∀ s, jGet kvs "recommendations" (.arr []) = .str s →
      p.recommendations = .arr [.str s]) ∧
    (∀ v, jGet kvs "recommendations" (.arr []) = v → (∀ s, v ≠ .str s) →
      p.recommendations = v) ∧
    (∃ pf : Processed,
      processAnalysisResult defaultScoreWeights
        (.obj [("recommendations", .str "fix it")]) = .ok pf ∧
      pf.recommendations = .arr [.str "fix it"]) := by
  rcases processAnalysisResult_ok_shape w kvs p h with ⟨slist, items, hsc, hit, rfl⟩
  refine ⟨?_, ?_, ?_⟩
  · intro s hs
    simp only [hs]
  · intro v hv hne
    subst hv
    cases hg : jGet kvs "recommendations" (.arr [])
    case str s => exact absurd hg (hne s)
    all_goals simp [hg]
  · refine ⟨{ overall_score := .float (roundTo1
                ((5 : ℚ) * defaultScoreWeights.quality +
                 (5 : ℚ) * defaultScoreWeights.security +
                 (5 : ℚ) * defaultScoreWeights.performance))
            , scores := [("Quality", 5), ("Security", 5), ("Performance", 5)]
            , issues := []
            , recommendations := .arr [.str "fix it"]
            , summary := .str "Analysis completed" }, ?_, rfl⟩
    with_unfolding_all rfl

theorem recommendations_wrapping_witness :
    ∃ p : Processed,
      processAnalysisResult defaultScoreWeights
        (.obj [("recommendations", .str "fix it")]) = .ok p ∧
      p.recommendations = .arr [.str "fix it"] := by
  have h0 : processAnalysisResult defaultScoreWeights
      (.obj [("recommendations", .str "fix it")]) =
      .ok { overall_score := .float (roundTo1
              ((5 : ℚ) * defaultScoreWeights.quality +
               (5 : ℚ) * defaultScoreWeights.security +
               (5 : ℚ) * defaultScoreWeights.performance))
          , scores := [("Quality", 5), ("Security", 5), ("Performance", 5)]
          , issues := []
          , recommendations := .arr [.str "fix it"]
          , summary := .str "Analysis completed" } := by
    with_unfolding_all rfl
  refine ⟨_, h0, ?_⟩
  exact (recommendations_wrapping defaultScoreWeights
    [("recommendations", .str "fix it")] _ h0).1 "fix it" rfl

set_option maxRecDepth 8192 in
/-- C8: the user prompt interpolates the comma-joined enabled aspect
names in the fixed order style, security, performance; it embeds the
code in a fenced block labeled with the detected language; the language
falls back to "python" for an unrecognized extension; and with all three
aspect booleans false the joined aspect list is empty while the prompt
keeps its full shape. -/
theorem buildAnalysisPrompt_structure (code filename : String)
    (include_security include_performance include_style : Bool) :
    (analysisAspects include_security include_performance include_style =
      (if include_style then ["code quality and style"] else []) ++
      (if include_security then ["security vulnerabilities"] else []) ++
      (if include_performance then ["performance optimization"] else [])) ∧
    (∃ pre post : String,
      buildAnalysisPrompt code (detectLanguage filename) filename
          include_security include_performance include_style =
        pre ++ ("```" ++ detectLanguage filename ++ "\n" ++ code ++ "\n```") ++ post) ∧
    (∃ pre2 post2 : String,
      buildAnalysisPrompt code (detectLanguage filename) filename
          include_security include_performance include_style =
        pre2 ++ String.intercalate ", "
          (analysisAspects include_security include_performance include_style) ++ post2) ∧
    (getFileExtensionLanguage filename = none → detectLanguage filename = "python") ∧
    (include_security = false → include_performance = false → include_style = false →
      String.intercalate ", "
        (analysisAspects include_security include_performance include_style) = "") := by
  have hsplit2 : ("\n```\n\nFocus on:\n- Code quality: readability, maintainability, best practices, naming conventions\n- Security: potential vulnerabilities, unsafe operations, input validation\n- Performance: efficiency, algorithm complexity, resource usage\n- Specific issues with line numbers when possible\n- Actionable recommendations for improvement\n\nProvide scores from 1-10 (10 being excellent) and specific, actionable feedback." : String).data =
      ("\n```" : String).data ++ ("\n\nFocus on:\n- Code quality: readability, maintainability, best practices, naming conventions\n- Security: potential vulnerabilities, unsafe operations, input validation\n- Performance: efficiency, algorithm complexity, resource usage\n- Specific issues with line numbers when possible\n- Actionable recommendations for improvement\n\nProvide scores from 1-10 (10 being excellent) and specific, actionable feedback." : String).data := rfl
  refine ⟨rfl, ?_, ?_, ?_, ?_⟩
  · refine ⟨"Please analyze this " ++ detectLanguage filename ++ " code file (" ++
      filename ++ ") for " ++
      String.intercalate ", "
        (analysisAspects include_security include_performance include_style) ++
      ".\n\nCode to analyze:\n",
      "\n\nFocus on:\n- Code quality: readability, maintainability, best practices, naming conventions\n- Security: potential vulnerabilities, unsafe operations, input validation\n- Performance: efficiency, algorithm complexity, resource usage\n- Specific issues with line numbers when possible\n- Actionable recommendations for improvement\n\nProvide scores from 1-10 (10 being excellent) and specific, actionable feedback.", ?_⟩
    apply String.ext
    simp only [buildAnalysisPrompt, String.data_append, List.append_assoc,
      List.cons_append, List.nil_append]
  · refine ⟨"Please analyze this " ++ detectLanguage filename ++ " code file (" ++
      filename ++ ") for ",
      ".\n\nCode to analyze:\n```" ++ detectLanguage filename ++ "\n" ++ code ++
      "\n```\n\nFocus on:\n- Code quality: readability, maintainability, best practices, naming conventions\n- Security: potential vulnerabilities, unsafe operations, input validation\n- Performance: efficiency, algorithm complexity, resource usage\n- Specific issues with line numbers when possible\n- Actionable recommendations for improvement\n\nProvide scores from 1-10 (10 being excellent) and specific, actionable feedback.", ?_⟩
    apply String.ext
    simp only [buildAnalysisPrompt, String.data_append, List.append_assoc,
      List.cons_append, List.nil_append]
  · intro h
    unfold detectLanguage pyOrStr
    rw [h]
  · intro h1 h2 h3
    subst h1
    subst h2
    subst h3
    rfl

theorem buildAnalysisPrompt_structure_witness :
    detectLanguage "file.xyz" = "python" ∧
    String.intercalate ", " (analysisAspects false false false) = "" :=
  ⟨(buildAnalysisPrompt_structure "c" "file.xyz" false false false).2.2.2.1
      (by with_unfolding_all rfl),
   (buildAnalysisPrompt_structure "c" "file.xyz" false false false).2.2.2.2 rfl rfl rfl⟩

/-- C9: the prompt builder is deterministic and side-effect free: the
system prompt is one fixed string, and two calls with equal inputs
produce equal user prompts. -/
theorem promptBuilder_deterministic (c l f : String) (b1 b2 b3 : Bool)
    (c' l' f' : String) (b1' b2' b3' : Bool)
    (hc : c = c') (hl : l = l') (hf : f = f')
    (h1 : b1 = b1') (h2 : b2 = b2') (h3 : b3 = b3') :
    buildAnalysisPrompt c l f b1 b2 b3 = buildAnalysisPrompt c' l' f' b1' b2' b3' ∧
    getSystemPrompt =
      "You are an expert code reviewer and security analyst. Your job is to analyze code for:\n\n1. CODE QUALITY: Readability, maintainability, best practices, design patterns\n2. SECURITY: Vulnerabilities, unsafe practices, potential exploits\n3. PERFORMANCE: Efficiency, optimization opportunities, resource usage\n\nYou must respond with a valid JSON object containing:\n\x7b\n    \"overall_score\": <number 1-10>,\n    \"scores\": \x7b\n        \"Quality\": <number 1-10>,\n        \"Security\": <number 1-10>,\n        \"Performance\": <number 1-10>\n    \x7d,\n    \"issues\": [\n        \x7b\n            \"type\": \"Quality|Security|Performance\",\n            \"severity\": \"Low|Medium|High|Critical\",\n            \"description\": \"Clear description of the issue\",\n            \"line\": <line number or null>,\n            \"code\": \"problematic code snippet or null\"\n        \x7d\n    ],\n    \"recommendations\": [\n        \"Specific actionable recommendation\"\n    ],\n    \"summary\": \"Brief summary of the analysis\"\n\x7d\n\nBe thorough but constructive. Focus on actionable feedback." := by
  subst hc
  subst hl
  subst hf
  subst h1
  subst h2
  subst h3
  exact ⟨rfl, rfl⟩

theorem promptBuilder_deterministic_witness :
    buildAnalysisPrompt "x" "python" "a.py" true true true =
      buildAnalysisPrompt "x" "python" "a.py" true true true :=
  (promptBuilder_deterministic "x" "python" "a.py" true true true
    "x" "python" "a.py" true true true rfl rfl rfl rfl rfl rfl).1

theorem analyzeReply_never_throws_witness :
    (analyzeReply defaultScoreWeights (.error "bad")).overall_score = .int 0 ∧
    (analyzeReply defaultScoreWeights (.error "bad")).issues.length = 1 :=
  ⟨((analyzeReply_never_throws).1 "bad").2.1,
   ((analyzeReply_never_throws).1 "bad").2.2.1⟩
